import Mathlib

/-!
Verification of the camera-entropy optimization script `find_highest_entropy.py`.

The script loads a mesh, renders silhouettes from a learnable camera position,
computes an entropy-derived loss, optimizes the camera with Adam, snapshots a
frame per iteration and assembles the frames into a GIF.  This file gives a
shallow embedding of the script's own logic (tensor contents as lists of
rationals or reals, the external renderer as an opaque function argument) and
proves the specified properties about it.
-/

/-- Mean of a list of reals, modelling `torch.Tensor.mean()` on a flattened
tensor: sum of the elements divided by their number. -/
noncomputable def mean (l : List ℝ) : ℝ := l.sum / l.length

/-- Model of `torch.special.entr`: `entr x = -x * log x` for `x > 0` and `0`
at `x = 0`.  (For `x < 0` torch returns `-inf`; silhouette pixels are
nonnegative, and the branch is collapsed to the `else` arm here.) -/
noncomputable def entr (x : ℝ) : ℝ := if 0 < x then -(x * Real.log x) else 0

/-- The silhouette renderer `nr.Renderer(camera_mode='look_at')` invoked as
`self.renderer(self.vertices, self.faces, mode='silhouettes')`: an opaque
external function from vertices, faces and the camera eye position to the
flattened rendered silhouette image. -/
def Renderer : Type := List (List ℝ) → List (List ℕ) → (Fin 3 → ℝ) → List ℝ

/-- State of `Model` (an `nn.Module`): `vertices`, `faces`, `textures` and
`image_ref` are registered buffers, `camera_position` is the sole
`nn.Parameter` (a 3-vector).  The renderer eye is bound to
`camera_position`, so the renderer is applied to it directly. -/
structure Model where
  vertices : List (List ℝ)
  faces : List (List ℕ)
  textures : List ℝ
  image_ref : List (List ℚ)
  camera_position : Fin 3 → ℝ

/-- The entropy scalar computed inside `Model.forward` before scaling:
`entr(image).mean()` for the rendered silhouette. -/
noncomputable def entropyScalar (R : Renderer) (m : Model) : ℝ :=
  mean ((R m.vertices m.faces m.camera_position).map entr)

/-- Model of `Model.forward`: render the silhouette, let
`entropy = entr(image).mean() * 10.0`, return `loss = 1.0 / entropy`.
The `print` calls are side effects with no bearing on the returned value. -/
noncomputable def Model.forward (R : Renderer) (m : Model) : ℝ :=
  let image := R m.vertices m.faces m.camera_position
  let entropy := mean (image.map entr) * 10
  1 / entropy

/-- C1: for every rendered silhouette, the loss returned by `Model.forward`
equals the reciprocal of the entropy scalar (the mean over all pixels of the
elementwise `p*log(1/p)` entropy of the silhouette) scaled by 10.0, and
consequently the loss strictly decreases as the entropy scalar increases
(for positive entropy). -/
theorem forward_is_reciprocal_of_scaled_entropy (R R2 : Renderer) (m : Model)
    (hpos : 0 < entropyScalar R m) (hlt : entropyScalar R m < entropyScalar R2 m) :
    Model.forward R m = 1 / (10 * entropyScalar R m) ∧
      Model.forward R2 m < Model.forward R m := by
  constructor
  · show 1 / (entropyScalar R m * 10) = 1 / (10 * entropyScalar R m)
    rw [mul_comm]
  · have h10 : (0:ℝ) < entropyScalar R m * 10 := by linarith
    have hmul : entropyScalar R m * 10 < entropyScalar R2 m * 10 := by linarith
    exact one_div_lt_one_div_of_lt h10 hmul

/-- Concrete model state used by witnesses. -/
noncomputable def m0 : Model :=
  { vertices := [], faces := [], textures := [], image_ref := [],
    camera_position := fun _ => 0 }

/-- Renderer producing the constant two-pixel image `[1/2, 1]`. -/
noncomputable def R0 : Renderer := fun _ _ _ => [1/2, 1]

/-- Renderer producing the constant one-pixel image `[1/2]`. -/
noncomputable def R1 : Renderer := fun _ _ _ => [1/2]

theorem entropyScalar_R0 : entropyScalar R0 m0 = Real.log 2 / 4 := by
  have h1 : entr (1/2) = Real.log 2 / 2 := by
    rw [entr, if_pos (by norm_num)]
    rw [show (1:ℝ)/2 = (2:ℝ)⁻¹ by norm_num, Real.log_inv]
    ring
  have h2 : entr 1 = 0 := by
    rw [entr, if_pos (by norm_num), Real.log_one]
    ring
  simp only [entropyScalar, R0, mean, List.map, h1, h2]
  norm_num
  ring

theorem entropyScalar_R1 : entropyScalar R1 m0 = Real.log 2 / 2 := by
  have h1 : entr (1/2) = Real.log 2 / 2 := by
    rw [entr, if_pos (by norm_num)]
    rw [show (1:ℝ)/2 = (2:ℝ)⁻¹ by norm_num, Real.log_inv]
    ring
  simp only [entropyScalar, R1, mean, List.map, h1]
  norm_num

/-- Witness for C1: at the concrete silhouettes `[1/2, 1]` and `[1/2]` the
entropy scalar increases and the loss strictly decreases, and the loss equals
the reciprocal of ten times the entropy scalar. -/
theorem forward_is_reciprocal_of_scaled_entropy_witness :
    Model.forward R0 m0 = 1 / (10 * entropyScalar R0 m0) ∧
      Model.forward R1 m0 < Model.forward R0 m0 := by
  have hlog : 0 < Real.log 2 := Real.log_pos (by norm_num)
  exact forward_is_reciprocal_of_scaled_entropy R0 R1 m0
    (by rw [entropyScalar_R0]; linarith)
    (by rw [entropyScalar_R0, entropyScalar_R1]; linarith)

/-- C9: `Model.forward` never reads the stored reference image: two models
agreeing on vertices, faces, textures and camera position (but with arbitrary
`image_ref` buffers) produce equal losses under every renderer. -/
theorem forward_independent_of_image_ref (R : Renderer) (m1 m2 : Model)
    (hv : m1.vertices = m2.vertices) (hf : m1.faces = m2.faces)
    (_ht : m1.textures = m2.textures)
    (hc : m1.camera_position = m2.camera_position) :
    Model.forward R m1 = Model.forward R m2 := by
  simp [Model.forward, hv, hf, hc]

/-- Model state agreeing with `m0` except for the reference-image buffer. -/
noncomputable def m1 : Model :=
  { vertices := [], faces := [], textures := [], image_ref := [[1]],
    camera_position := fun _ => 0 }

/-- Witness for C9: the concrete models `m0` and `m1` differ only in
`image_ref`, and their losses under `R0` coincide. -/
theorem forward_independent_of_image_ref_witness :
    Model.forward R0 m0 = Model.forward R0 m1 :=
  forward_independent_of_image_ref R0 m0 m1 rfl rfl rfl rfl

/-! ### The optimizer: `torch.optim.Adam(model.parameters(), lr=0.1)`

`model.parameters()` contains exactly the tensors registered through
`nn.Parameter`, i.e. only `camera_position`; the buffers registered through
`register_buffer` (`vertices`, `faces`, `textures`, `image_ref`) are not
handed to the optimizer.  The hyperparameters are the explicit `lr=0.1` and
the PyTorch defaults `betas=(0.9, 0.999)`, `eps=1e-8`. -/

noncomputable def adamLR : ℝ := 1 / 10

noncomputable def adamBeta1 : ℝ := 9 / 10

noncomputable def adamBeta2 : ℝ := 999 / 1000

noncomputable def adamEps : ℝ := 1 / 10 ^ 8

/-- Per-parameter Adam optimizer state: first and second moment estimates
and the step counter. -/
structure AdamState where
  m : Fin 3 → ℝ
  v : Fin 3 → ℝ
  t : ℕ

/-- Freshly constructed optimizer state: zero moments, zero steps taken. -/
noncomputable def adamInit : AdamState := ⟨fun _ => 0, fun _ => 0, 0⟩

/-- One Adam update of a parameter vector `θ` with gradient `g`, following
the PyTorch Adam algorithm (no weight decay, no amsgrad):
`m ← β₁m + (1-β₁)g`, `v ← β₂v + (1-β₂)g²`, bias correction by `1-βᵢᵗ`,
`θ ← θ - lr·m̂/(√v̂ + ε)`. -/
noncomputable def adamStep (g : Fin 3 → ℝ) (st : AdamState) (θ : Fin 3 → ℝ) :
    (Fin 3 → ℝ) × AdamState :=
  let t := st.t + 1
  let mNew := fun i => adamBeta1 * st.m i + (1 - adamBeta1) * g i
  let vNew := fun i => adamBeta2 * st.v i + (1 - adamBeta2) * g i ^ 2
  let mHat := fun i => mNew i / (1 - adamBeta1 ^ t)
  let vHat := fun i => vNew i / (1 - adamBeta2 ^ t)
  (fun i => θ i - adamLR * mHat i / (Real.sqrt (vHat i) + adamEps),
   ⟨mNew, vNew, t⟩)

/-- `optimizer.step()`: applies the Adam update to the parameters of the
model — exactly the `camera_position` parameter — and leaves the registered
buffers untouched. -/
noncomputable def optimizerStep (g : Fin 3 → ℝ) (st : AdamState) (mdl : Model) :
    Model × AdamState :=
  let p := adamStep g st mdl.camera_position
  ({ mdl with camera_position := p.1 }, p.2)

/-- Constant gradient vector `1`: nonzero in every coordinate. -/
noncomputable def g1 : Fin 3 → ℝ := fun _ => 1

/-- Constant gradient vector `-9/10`: also nonzero in every coordinate. -/
noncomputable def gNeg : Fin 3 → ℝ := fun _ => -(9/10)

/-- The optimizer state reached after one training step from the fresh
state with gradient `g1` (first moment `1/10`, second moment `1/1000`,
step counter 1). -/
noncomputable def adamAfter1 : AdamState := (optimizerStep g1 adamInit m0).2

/-- Counterexample to C2 as stated: a training step taken from a reachable
non-fresh optimizer state (the state after a first step with gradient `1`)
with the nonzero gradient `-9/10` leaves the camera position exactly
unchanged — the new first moment `β₁·(1/10) + (1-β₁)·(-9/10)` is exactly
zero, so the Adam update vanishes despite the nonzero gradient. -/
theorem optimizer_second_step_can_freeze_camera :
    (∃ i, gNeg i ≠ 0) ∧
    (optimizerStep gNeg adamAfter1 m0).1.camera_position
      = m0.camera_position := by
  constructor
  · exact ⟨0, by rw [gNeg]; norm_num⟩
  · funext i
    have hm : adamBeta1 * adamAfter1.m i + (1 - adamBeta1) * gNeg i = 0 := by
      show adamBeta1 * (adamBeta1 * 0 + (1 - adamBeta1) * g1 i)
          + (1 - adamBeta1) * gNeg i = 0
      rw [adamBeta1, g1, gNeg]
      norm_num
    show m0.camera_position i
        - adamLR * ((adamBeta1 * adamAfter1.m i + (1 - adamBeta1) * gNeg i)
            / (1 - adamBeta1 ^ (adamAfter1.t + 1)))
          / (Real.sqrt ((adamBeta2 * adamAfter1.v i + (1 - adamBeta2) * gNeg i ^ 2)
              / (1 - adamBeta2 ^ (adamAfter1.t + 1))) + adamEps)
      = m0.camera_position i
    rw [hm, zero_div, mul_zero, zero_div, sub_zero]

/-- C2 (amended): every optimizer step changes only the camera-position
parameter — vertices, faces, textures (and the reference image) are
identical before and after the step, whatever the optimizer state — and on
the first training step (fresh optimizer state, as after `INIT`) a nonzero
gradient strictly changes the camera position.  (On later steps a nonzero
gradient can leave the camera unchanged when it exactly cancels the
accumulated momentum, per the counterexample above.) -/
theorem optimizer_step_changes_only_camera (g : Fin 3 → ℝ) (st : AdamState)
    (mdl : Model) (h : ∃ i, g i ≠ 0) :
    (optimizerStep g st mdl).1.vertices = mdl.vertices ∧
    (optimizerStep g st mdl).1.faces = mdl.faces ∧
    (optimizerStep g st mdl).1.textures = mdl.textures ∧
    (optimizerStep g st mdl).1.image_ref = mdl.image_ref ∧
    (optimizerStep g adamInit mdl).1.camera_position ≠ mdl.camera_position := by
  refine ⟨rfl, rfl, rfl, rfl, ?_⟩
  obtain ⟨i, hi⟩ := h
  intro hEq
  have hci := congrFun hEq i
  have hm : (adamBeta1 * (0:ℝ) + (1 - adamBeta1) * g i) / (1 - adamBeta1 ^ (0+1))
      = g i := by
    rw [adamBeta1]
    norm_num
  have hv : (adamBeta2 * (0:ℝ) + (1 - adamBeta2) * g i ^ 2) / (1 - adamBeta2 ^ (0+1))
      = g i ^ 2 := by
    rw [adamBeta2]
    norm_num
  have hstep : (optimizerStep g adamInit mdl).1.camera_position i
      = mdl.camera_position i - adamLR * g i / (|g i| + adamEps) := by
    show mdl.camera_position i
        - adamLR * ((adamBeta1 * (0:ℝ) + (1 - adamBeta1) * g i) / (1 - adamBeta1 ^ (0+1)))
          / (Real.sqrt ((adamBeta2 * (0:ℝ) + (1 - adamBeta2) * g i ^ 2)
              / (1 - adamBeta2 ^ (0+1))) + adamEps)
      = mdl.camera_position i - adamLR * g i / (|g i| + adamEps)
    rw [hm, hv, Real.sqrt_sq_eq_abs]
  rw [hstep] at hci
  have hupd : adamLR * g i / (|g i| + adamEps) = 0 := by linarith
  have hden : (0:ℝ) < |g i| + adamEps := by
    have : (0:ℝ) ≤ |g i| := abs_nonneg _
    rw [adamEps]
    positivity
  have hnum : adamLR * g i ≠ 0 := by
    refine mul_ne_zero ?_ hi
    rw [adamLR]
    norm_num
  exact hnum (by
    have := div_eq_zero_iff.mp hupd
    rcases this with h1 | h2
    · exact h1
    · exact absurd h2 (ne_of_gt hden))

/-- Witness for C2 (amended): at the concrete model `m0`, the non-fresh
optimizer state `adamAfter1` and the nonzero gradient `g1`, the step
preserves all buffers, and the first step from the fresh state strictly
moves the camera position. -/
theorem optimizer_step_changes_only_camera_witness :
    (optimizerStep g1 adamAfter1 m0).1.vertices = m0.vertices ∧
    (optimizerStep g1 adamAfter1 m0).1.faces = m0.faces ∧
    (optimizerStep g1 adamAfter1 m0).1.textures = m0.textures ∧
    (optimizerStep g1 adamAfter1 m0).1.image_ref = m0.image_ref ∧
    (optimizerStep g1 adamInit m0).1.camera_position ≠ m0.camera_position :=
  optimizer_step_changes_only_camera g1 adamAfter1 m0 ⟨0, one_ne_zero⟩

/-! ### The training loop

`for i in tqdm.tqdm(range(1000)): ... if loss.item() < 70: break`.

The loop body (zero_grad, forward, backward, optimizer step, frame
snapshot) is abstracted as a state-transition function `step` returning the
next state and the loss value observed by `loss.item()` (a float, embedded
as a rational so the comparison with 70 is the exact comparison the code
performs).  Only the control flow is at stake in the termination and
early-stopping claims, so they are proved for every such body. -/

/-- The fuel-indexed training loop: runs at most `fuel` iterations of
`step`, breaking right after the first iteration whose loss is `< 70`.
Returns the final state and the number of iterations executed. -/
def trainLoop {σ : Type} (step : σ → σ × ℚ) : ℕ → σ → σ × ℕ
  | 0, s => (s, 0)
  | n + 1, s =>
    let p := step s
    if p.2 < 70 then (p.1, 1)
    else
      let q := trainLoop step n p.1
      (q.1, q.2 + 1)

/-- The iteration bound `range(1000)` of the script's loop. -/
def iterationBound : ℕ := 1000

/-- The training loop as run by `main`: `trainLoop` with fuel 1000. -/
def runTraining {σ : Type} (step : σ → σ × ℚ) (s : σ) : σ × ℕ :=
  trainLoop step iterationBound s

/-- The loss observed at iteration `i` (0-based) when starting from state
`s`: the loss the body returns on its `i`-th execution. -/
def lossSeq {σ : Type} (step : σ → σ × ℚ) : σ → ℕ → ℚ
  | s, 0 => (step s).2
  | s, n + 1 => lossSeq step (step s).1 n

theorem trainLoop_spec {σ : Type} (step : σ → σ × ℚ) :
    ∀ (n : ℕ) (s : σ),
      (trainLoop step n s).2 ≤ n ∧
      (∀ i : ℕ, i + 1 < (trainLoop step n s).2 → 70 ≤ lossSeq step s i) ∧
      ((trainLoop step n s).2 < n →
        lossSeq step s ((trainLoop step n s).2 - 1) < 70) ∧
      (0 < n → 0 < (trainLoop step n s).2) := by
  intro n
  induction n with
  | zero =>
    intro s
    simp [trainLoop]
  | succ n ih =>
    intro s
    by_cases hbr : (step s).2 < 70
    · have hval : trainLoop step (n + 1) s = ((step s).1, 1) := by
        simp [trainLoop, hbr]
      rw [hval]
      refine ⟨by omega, ?_, ?_, by omega⟩
      · intro i hi
        omega
      · intro _
        simpa [lossSeq] using hbr
    · have hval : trainLoop step (n + 1) s
          = ((trainLoop step n (step s).1).1, (trainLoop step n (step s).1).2 + 1) := by
        simp [trainLoop, hbr]
      obtain ⟨ih1, ih2, ih3, ih4⟩ := ih (step s).1
      rw [hval]
      refine ⟨by omega, ?_, ?_, by omega⟩
      · intro i hi
        match i with
        | 0 => exact le_of_not_lt hbr
        | j + 1 =>
          have : j + 1 < (trainLoop step n (step s).1).2 := by omega
          simpa [lossSeq] using ih2 j this
      · intro hlt
        have hq : (trainLoop step n (step s).1).2 < n := by omega
        have hqpos : 0 < (trainLoop step n (step s).1).2 := ih4 (by omega)
        have := ih3 hq
        have hidx : (trainLoop step n (step s).1).2 + 1 - 1
            = ((trainLoop step n (step s).1).2 - 1) + 1 := by omega
        rw [hidx]
        simpa [lossSeq] using this

/-- C3: the training loop always terminates within the fixed bound: for
every loop body and start state it executes at most 1000 iterations, even
when the loss never drops below the stopping threshold. -/
theorem training_loop_at_most_1000_iterations {σ : Type}
    (step : σ → σ × ℚ) (s : σ) : (runTraining step s).2 ≤ 1000 :=
  (trainLoop_spec step iterationBound s).1

/-- C4: the training loop stops exactly at the first iteration whose loss
is strictly below 70, or when the 1000-iteration bound is hit, whichever
comes first: no more than 1000 iterations run, every non-final iteration
had loss at least 70 (so the first sub-70 loss ends the loop), and an early
stop means the final iteration's loss was strictly below 70. -/
theorem training_loop_stops_at_first_sub70_loss {σ : Type}
    (step : σ → σ × ℚ) (s : σ) :
    (runTraining step s).2 ≤ 1000 ∧
    (∀ i : ℕ, i + 1 < (runTraining step s).2 → 70 ≤ lossSeq step s i) ∧
    ((runTraining step s).2 < 1000 →
      lossSeq step s ((runTraining step s).2 - 1) < 70) :=
  ⟨(trainLoop_spec step iterationBound s).1,
   (trainLoop_spec step iterationBound s).2.1,
   (trainLoop_spec step iterationBound s).2.2.1⟩

/-- Loop body with constant loss 50, used by the C4 witness. -/
def step50 : Unit → Unit × ℚ := fun s => (s, 50)

/-- Witness for C4: with a body whose loss is always 50, the loop stops
early and the loss of its final iteration is indeed below 70. -/
theorem training_loop_stops_at_first_sub70_loss_witness :
    lossSeq step50 () ((runTraining step50 ()).2 - 1) < 70 :=
  (training_loop_stops_at_first_sub70_loss step50 ()).2.2 (by decide)

/-! ### The histogram entropy `entropy_loss`

`entropy_loss(residual)` loops over the batch dimension; for each sample it
flattens the tensor, computes the counts of its distinct values
(`torch.unique(..., return_counts=True)`), divides the counts by the number
of elements per sample (`shape[1]*shape[2]*shape[3]`), and accumulates
`torch.sum(p * torch.log2(p)) * -1`; finally it returns the mean over the
batch.  A 4-D tensor is embedded as a list (batch) of lists (the flattened
`C*W*H` pixel values of one sample, as exact rationals); the per-sample
element count is then the length of the flattened sample. -/

/-- Per-sample histogram entropy: distinct values of the flattened sample,
their counts divided by the element count, then `-Σ p·log2(p)`. -/
noncomputable def entropyOne (img : List ℚ) : ℝ :=
  -((img.dedup.map (fun v =>
      ((img.count v : ℝ) / (img.length : ℝ))
        * Real.logb 2 ((img.count v : ℝ) / (img.length : ℝ)))).sum)

/-- Model of `entropy_loss`: the mean over the batch of the per-sample
histogram entropies. -/
noncomputable def entropy_loss (batch : List (List ℚ)) : ℝ :=
  mean (batch.map entropyOne)

theorem list_sum_map_const {α : Type} (l : List α) (f : α → ℝ) (c : ℝ)
    (h : ∀ x ∈ l, f x = c) : (l.map f).sum = l.length * c := by
  induction l with
  | nil => simp
  | cons a t ih =>
    have ha : f a = c := h a (by simp)
    have ht : (t.map f).sum = t.length * c :=
      ih (fun x hx => h x (by simp [hx]))
    simp [ha, ht]
    ring

theorem entropyOne_uniform (img : List ℚ) (k mcnt : ℕ)
    (hk : 0 < k) (hm : 0 < mcnt)
    (hded : img.dedup.length = k)
    (hcnt : ∀ v ∈ img.dedup, img.count v = mcnt)
    (hlen : img.length = k * mcnt) :
    entropyOne img = Real.logb 2 k := by
  have hk0 : (k:ℝ) ≠ 0 := Nat.cast_ne_zero.mpr hk.ne'
  have hm0 : (mcnt:ℝ) ≠ 0 := Nat.cast_ne_zero.mpr hm.ne'
  have hp : ∀ v ∈ img.dedup,
      ((img.count v : ℝ) / (img.length : ℝ)) = 1 / (k:ℝ) := by
    intro v hv
    rw [hcnt v hv, hlen]
    push_cast
    field_simp
    ring
  have hterm : ∀ v ∈ img.dedup,
      ((img.count v : ℝ) / (img.length : ℝ))
        * Real.logb 2 ((img.count v : ℝ) / (img.length : ℝ))
      = (1 / (k:ℝ)) * Real.logb 2 (1 / (k:ℝ)) := by
    intro v hv
    rw [hp v hv]
  rw [entropyOne, list_sum_map_const _ _ _ hterm, hded]
  rw [one_div, Real.logb_inv]
  field_simp

/-- C5: for every (nonempty) batched input whose samples each take exactly
`k` distinct pixel values, every value occurring the same number `mcnt` of
times, `entropy_loss` returns `log2(k)`; in particular a single distinct
value (`k = 1`) gives `log2(1) = 0`. -/
theorem entropy_loss_uniform_split (batch : List (List ℚ)) (k mcnt : ℕ)
    (hne : batch ≠ []) (hk : 0 < k) (hm : 0 < mcnt)
    (hsplit : ∀ img ∈ batch, img.dedup.length = k ∧
      (∀ v ∈ img.dedup, img.count v = mcnt) ∧ img.length = k * mcnt) :
    entropy_loss batch = Real.logb 2 k := by
  have hb : ∀ img ∈ batch, entropyOne img = Real.logb 2 k := by
    intro img himg
    obtain ⟨h1, h2, h3⟩ := hsplit img himg
    exact entropyOne_uniform img k mcnt hk hm h1 h2 h3
  have hlen0 : (batch.length : ℝ) ≠ 0 := by
    have hnz : batch.length ≠ 0 := fun h => hne (List.length_eq_zero.mp h)
    exact Nat.cast_ne_zero.mpr hnz
  rw [entropy_loss, mean, list_sum_map_const _ _ _ hb, List.length_map]
  field_simp

/-- Witness for C5: a one-sample batch whose pixels all equal 5 has one
distinct value (`k = 1`), and its histogram entropy is 0. -/
theorem entropy_loss_uniform_split_witness : entropy_loss [[5, 5]] = 0 := by
  have h := entropy_loss_uniform_split [[5, 5]] 1 2
    (by decide) (by decide) (by decide) (by decide)
  simpa [Real.logb_one] using h

/-! ### The elementwise-safe entropy function `entropy`

`entropy(p, dim=-1)` computes `-torch.where(p > 0, p * p.log(), 0).sum(dim)`.
To express that the guard really prevents any NaN or infinity coming from
`log(0)` (or from a negative argument), float values are modelled as either
a finite real or a poisoned value `bad` standing for NaN and ±infinity:
`log` of a non-positive float is `bad`, and `bad` propagates through
arithmetic (as NaN does; `0 * inf` is NaN as well).  `torch.where` computes
both branches eagerly and then selects, which is modelled faithfully: the
`p * log(p)` branch is built (possibly `bad`) and then discarded wherever
the condition fails. -/

/-- A float value: a finite real, or `bad` (NaN or ±infinity). -/
inductive FloatVal where
  | fin (x : ℝ) : FloatVal
  | bad : FloatVal

/-- Float multiplication: finite times finite is finite; NaN/inf poison the
result (`0 * ±inf` is NaN, so `bad` absorbs unconditionally). -/
def FloatVal.mul : FloatVal → FloatVal → FloatVal
  | .fin x, .fin y => .fin (x * y)
  | _, _ => .bad

/-- Float addition: finite plus finite is finite; `bad` propagates. -/
def FloatVal.add : FloatVal → FloatVal → FloatVal
  | .fin x, .fin y => .fin (x + y)
  | _, _ => .bad

/-- Float negation. -/
def FloatVal.neg : FloatVal → FloatVal
  | .fin x => .fin (-x)
  | .bad => .bad

/-- Float logarithm: `log` of a positive finite value is finite; `log 0`
is `-inf` and `log` of a negative value is NaN, both `bad`. -/
noncomputable def FloatVal.log : FloatVal → FloatVal
  | .fin x => if 0 < x then .fin (Real.log x) else .bad
  | .bad => .bad

/-- Sum of a tensor axis, modelling `.sum(dim)` along that axis. -/
def FloatVal.sum (l : List FloatVal) : FloatVal :=
  l.foldr FloatVal.add (FloatVal.fin 0)

/-- `torch.where(c, a, b)`: both branches are already computed; select. -/
def whereSel (c : Prop) [Decidable c] (a b : FloatVal) : FloatVal :=
  if c then a else b

/-- One element of `torch.where(p > 0, p * p.log(), p.new([0.0]))`. -/
noncomputable def safeEntrTerm (p : ℝ) : FloatVal :=
  whereSel (p > 0) ((FloatVal.fin p).mul (FloatVal.fin p).log) (FloatVal.fin 0)

/-- Model of the source's `entropy(p, dim=-1)`: the input tensor is viewed
as a list of slices along the reduction axis; each output element is the
negated sum of the guarded `p * log p` terms of its slice. -/
noncomputable def entropy (p : List (List ℝ)) : List FloatVal :=
  p.map (fun row => (FloatVal.sum (row.map safeEntrTerm)).neg)

theorem floatSum_safeEntrTerm (row : List ℝ) :
    FloatVal.sum (row.map safeEntrTerm)
      = FloatVal.fin ((row.map (fun x => if 0 < x then x * Real.log x else 0)).sum) := by
  induction row with
  | nil => simp [FloatVal.sum]
  | cons x xs ih =>
    have hsum : FloatVal.sum (List.map safeEntrTerm (x :: xs))
        = FloatVal.add (safeEntrTerm x) (FloatVal.sum (List.map safeEntrTerm xs)) := rfl
    rw [hsum, ih]
    by_cases hx : 0 < x
    · have hterm : safeEntrTerm x = FloatVal.fin (x * Real.log x) := by
        rw [safeEntrTerm, whereSel, if_pos hx, FloatVal.log, if_pos hx, FloatVal.mul]
      rw [hterm]
      show FloatVal.fin (x * Real.log x
            + (List.map (fun y => if 0 < y then y * Real.log y else 0) xs).sum)
        = FloatVal.fin ((List.map (fun y => if 0 < y then y * Real.log y else 0) (x :: xs)).sum)
      simp [hx]
    · have hterm : safeEntrTerm x = FloatVal.fin 0 := by
        rw [safeEntrTerm, whereSel, if_neg hx]
      rw [hterm]
      show FloatVal.fin (0
            + (List.map (fun y => if 0 < y then y * Real.log y else 0) xs).sum)
        = FloatVal.fin ((List.map (fun y => if 0 < y then y * Real.log y else 0) (x :: xs)).sum)
      simp [hx]

/-- C6: in the safe entropy function, a location with probability exactly 0
contributes exactly 0 (the guarded branch, not `0 * log 0`); a location with
`p > 0` contributes `p * log p`; and the result is the negated sum along the
reduction axis of these contributions, always a finite float — no NaN or
infinity from `log(0)` survives the `torch.where` guard. -/
theorem entropy_guard_is_elementwise_safe :
    safeEntrTerm 0 = FloatVal.fin 0 ∧
    (∀ x : ℝ, 0 < x → safeEntrTerm x = FloatVal.fin (x * Real.log x)) ∧
    (∀ p : List (List ℝ), entropy p = p.map (fun row =>
      FloatVal.fin (-(row.map (fun x => if 0 < x then x * Real.log x else 0)).sum))) := by
  refine ⟨?_, ?_, ?_⟩
  · rw [safeEntrTerm, whereSel, if_neg (lt_irrefl 0)]
  · intro x hx
    rw [safeEntrTerm, whereSel, if_pos hx, FloatVal.log, if_pos hx, FloatVal.mul]
  · intro p
    rw [entropy]
    refine List.map_congr_left ?_
    intro row _
    rw [floatSum_safeEntrTerm, FloatVal.neg]

/-- Witness for C6: on the concrete slice `[0, 1]` (a zero probability and
a positive one) the safe entropy is the finite float 0 — the zero location
contributed 0 rather than NaN. -/
theorem entropy_guard_is_elementwise_safe_witness :
    entropy [[0, 1]] = [FloatVal.fin 0] := by
  have h := entropy_guard_is_elementwise_safe.2.2 [[0, 1]]
  simpa using h

/-! ### The GIF assembler `make_gif`

`make_gif` iterates over `sorted(glob('/tmp/_tmp_*.png'))`; for each matched
filename it appends the image read from that file to the GIF writer and then
immediately removes the file.  The filesystem is modelled as an association
list from filenames to images; the glob is modelled by its prefix and
suffix; Python's `sorted` on strings is lexicographic, modelled by insertion
sort with the string order.  The emitted event trace records the
append/delete interleaving. -/

/-- Image contents of one frame file. -/
abbrev Img := List ℚ

/-- Whether a filename matches the glob pattern `/tmp/_tmp_*.png`. -/
def globMatch (n : String) : Bool :=
  n.startsWith "/tmp/_tmp_" && n.endsWith ".png"

/-- `imread(filename)`: the image stored under the name (default on a
missing file; every name passed to it during `make_gif` exists). -/
def fsRead (fs : List (String × Img)) (n : String) : Img :=
  ((fs.find? (fun e => e.1 == n)).map Prod.snd).getD []

/-- `os.remove(filename)`: drop the file with that name. -/
def fsRemove (fs : List (String × Img)) (n : String) : List (String × Img) :=
  fs.filter (fun e => e.1 != n)

/-- Observable side effects of the assembler loop, in order. -/
inductive GifEvent where
  | append (n : String) : GifEvent
  | delete (n : String) : GifEvent
deriving DecidableEq

/-- The assembler's loop over the sorted filename list: read and append the
frame, then delete its file, then continue.  Returns the final filesystem,
the appended frames in order, and the event trace. -/
def gifLoop : List String → List (String × Img) →
    List (String × Img) × List Img × List GifEvent
  | [], fs => (fs, [], [])
  | n :: rest, fs =>
    let img := fsRead fs n
    let fs2 := fsRemove fs n
    let r := gifLoop rest fs2
    (r.1, img :: r.2.1, GifEvent.append n :: GifEvent.delete n :: r.2.2)

/-- `sorted(glob('/tmp/_tmp_*.png'))`: the matching filenames in ascending
lexicographic order. -/
def sortedFrameNames (fs : List (String × Img)) : List String :=
  List.insertionSort (fun a b : String => a ≤ b)
    ((fs.map Prod.fst).filter globMatch)

/-- Model of `make_gif`: run the assembler loop on the sorted glob result. -/
def make_gif (fs : List (String × Img)) :
    List (String × Img) × List Img × List GifEvent :=
  gifLoop (sortedFrameNames fs) fs

theorem fsRead_cons_eq (e : String × Img) (tl : List (String × Img))
    (m : String) (h2 : (e.1 == m) = true) : fsRead (e :: tl) m = e.2 := by
  simp [fsRead, List.find?, h2]

theorem fsRead_cons_ne (e : String × Img) (tl : List (String × Img))
    (m : String) (h2 : (e.1 == m) = false) :
    fsRead (e :: tl) m = fsRead tl m := by
  simp [fsRead, List.find?, h2]

theorem fsRead_remove_ne (fs : List (String × Img)) (n m : String)
    (h : m ≠ n) : fsRead (fsRemove fs n) m = fsRead fs m := by
  induction fs with
  | nil => rfl
  | cons e tl ih =>
    rw [fsRemove, List.filter_cons]
    by_cases he : e.1 = n
    · rw [if_neg (by simp [he])]
      rw [show List.filter (fun e => e.1 != n) tl = fsRemove tl n from rfl, ih]
      have h2 : (e.1 == m) = false := by
        simp only [beq_eq_false_iff_ne, ne_eq, he]
        exact fun hc => h hc.symm
      exact (fsRead_cons_ne e tl m h2).symm
    · rw [if_pos (by simp [he])]
      by_cases hm : e.1 = m
      · rw [fsRead_cons_eq e _ m (by simp [hm]), fsRead_cons_eq e tl m (by simp [hm])]
      · rw [fsRead_cons_ne e _ m (by simp [hm]), fsRead_cons_ne e tl m (by simp [hm])]
        exact ih

theorem gifLoop_frames (names : List String) : ∀ fs : List (String × Img),
    names.Nodup → (gifLoop names fs).2.1 = names.map (fsRead fs) := by
  induction names with
  | nil => intro fs _; rfl
  | cons n rest ih =>
    intro fs hnd
    have hnotin : n ∉ rest := (List.nodup_cons.mp hnd).1
    have hndr : rest.Nodup := (List.nodup_cons.mp hnd).2
    show fsRead fs n :: (gifLoop rest (fsRemove fs n)).2.1
        = fsRead fs n :: rest.map (fsRead fs)
    congr 1
    rw [ih (fsRemove fs n) hndr]
    refine List.map_congr_left ?_
    intro m hm
    exact fsRead_remove_ne fs n m (fun he => hnotin (he ▸ hm))

theorem gifLoop_fs (names : List String) : ∀ fs : List (String × Img),
    (gifLoop names fs).1
      = fs.filter (fun e => names.all (fun n => e.1 != n)) := by
  induction names with
  | nil =>
    intro fs
    simp [gifLoop]
  | cons n rest ih =>
    intro fs
    show (gifLoop rest (fsRemove fs n)).1 = _
    rw [ih, fsRemove, List.filter_filter]
    refine List.filter_congr ?_
    intro e _
    simp only [List.all_cons]
    rw [Bool.and_comm]

theorem gifLoop_events (names : List String) : ∀ fs : List (String × Img),
    (gifLoop names fs).2.2
      = names.flatMap (fun n => [GifEvent.append n, GifEvent.delete n]) := by
  induction names with
  | nil => intro fs; rfl
  | cons n rest ih =>
    intro fs
    show GifEvent.append n :: GifEvent.delete n
        :: (gifLoop rest (fsRemove fs n)).2.2 = _
    rw [ih]
    rfl

/-- C7: `make_gif` processes the matched frame files in ascending
lexicographic order, appends exactly one frame per matched file to the
output in that order, deletes each file immediately after appending it
(visible in the event trace), and afterwards every matched file is gone
from the filesystem while unmatched files are untouched. -/
theorem make_gif_sorted_append_delete (fs : List (String × Img))
    (hnd : (fs.map Prod.fst).Nodup) :
    List.Sorted (fun a b : String => a ≤ b) (sortedFrameNames fs) ∧
    (make_gif fs).2.1 = (sortedFrameNames fs).map (fsRead fs) ∧
    (make_gif fs).1 = fs.filter (fun e => !(globMatch e.1)) ∧
    (make_gif fs).2.2 = (sortedFrameNames fs).flatMap
      (fun n => [GifEvent.append n, GifEvent.delete n]) := by
  have hperm : (sortedFrameNames fs).Perm ((fs.map Prod.fst).filter globMatch) :=
    List.perm_insertionSort _ _
  have hnodup : (sortedFrameNames fs).Nodup :=
    hperm.nodup_iff.mpr (hnd.filter _)
  have hmem : ∀ e ∈ fs, (e.1 ∈ sortedFrameNames fs ↔ globMatch e.1 = true) := by
    intro e he
    rw [hperm.mem_iff, List.mem_filter]
    exact ⟨fun hx => hx.2, fun hg => ⟨List.mem_map_of_mem Prod.fst he, hg⟩⟩
  refine ⟨List.sorted_insertionSort _ _, gifLoop_frames _ fs hnodup, ?_,
    gifLoop_events _ fs⟩
  rw [make_gif, gifLoop_fs]
  refine List.filter_congr ?_
  intro e he
  cases hg : globMatch e.1 with
  | false =>
    have hnotmem : e.1 ∉ sortedFrameNames fs := by
      intro hmm
      rw [(hmem e he)] at hmm
      exact absurd hmm (by simp [hg])
    simp only [Bool.not_false]
    rw [List.all_eq_true]
    intro x hx
    simp only [bne_iff_ne, ne_eq]
    exact fun heq => hnotmem (heq ▸ hx)
  | true =>
    have hin : e.1 ∈ sortedFrameNames fs := (hmem e he).mpr hg
    simp only [Bool.not_true]
    rw [List.all_eq_false]
    exact ⟨e.1, hin, by simp⟩

/-- Concrete three-file filesystem for the C7 witness: two matching frame
files, listed out of order, and one unrelated file. -/
def fs0 : List (String × Img) :=
  [("/tmp/_tmp_0001.png", [1]), ("/a.txt", [2]), ("/tmp/_tmp_0000.png", [0])]

/-- Witness for C7: on the concrete filesystem `fs0` the assembler's
processing order is sorted, the output has one frame per matched file in
that order, each append is immediately followed by the delete of the same
file, and only the unmatched file survives. -/
theorem make_gif_sorted_append_delete_witness :
    List.Sorted (fun a b : String => a ≤ b) (sortedFrameNames fs0) ∧
    (make_gif fs0).2.1 = (sortedFrameNames fs0).map (fsRead fs0) ∧
    (make_gif fs0).1 = fs0.filter (fun e => !(globMatch e.1)) ∧
    (make_gif fs0).2.2 = (sortedFrameNames fs0).flatMap
      (fun n => [GifEvent.append n, GifEvent.delete n]) :=
  make_gif_sorted_append_delete fs0 (by decide)

/-! ### Model construction (`Model.__init__`) and `main`

`Model.__init__` loads the mesh through `nr.load_obj`, creates a constant
all-ones texture tensor of shape `(1, n_faces, 2, 2, 2, 3)`, loads the
reference image and binarizes it by `(imread(filename_ref).max(-1) != 0)`,
and sets the camera parameter to `[6, 10, -14]`.  The external library
calls (`nr.load_obj`, `imread`, the renderers, autodiff's gradients and the
float readout `loss.item()`) are collected in an opaque environment. -/

/-- Opaque external collaborators of the script. -/
structure Env where
  load_obj : String → List (List ℝ) × List (List ℕ)
  imreadImg : String → List (List (List ℚ))
  render : Renderer
  renderTex : Model → Img
  grad : ℕ → Fin 3 → ℝ
  lossVal : Model → ℚ
  makeRef : String → Img

/-- `.max(-1)` on one pixel: the maximum over the channel axis. -/
def chanMax : List ℚ → ℚ
  | [] => 0
  | x :: xs => xs.foldl max x

/-- `(imread(filename_ref).max(-1) != 0).astype(np.float32)`: the 2-D mask
whose entry is `1.0` where the pixel's maximum channel value is nonzero and
`0.0` elsewhere. -/
def binarize (img : List (List (List ℚ))) : List (List ℚ) :=
  img.map (fun row => row.map (fun px => if chanMax px ≠ 0 then (1:ℚ) else 0))

/-- Model of `Model.__init__`: load the mesh, build the all-ones texture
(`texture_size = 2`, flattened to `n_faces * 2*2*2*3` ones), binarize the
loaded reference image, set the camera parameter to `[6, 10, -14]`. -/
noncomputable def Model.init (env : Env) (filename_obj filename_ref : String) :
    Model :=
  let vf := env.load_obj filename_obj
  { vertices := vf.1
    faces := vf.2
    textures := List.replicate (vf.2.length * 24) (1:ℝ)
    image_ref := binarize (env.imreadImg filename_ref)
    camera_position := ![(6:ℝ), 10, -14] }

/-- C8: the stored reference mask is binary: positionally for every pixel
of the loaded reference image, the mask element is `1.0` exactly when the
pixel's maximum channel value is nonzero and `0.0` otherwise — no other
value occurs. -/
theorem image_ref_is_binary_mask (env : Env) (fo fr : String) :
    List.Forall₂ (List.Forall₂ (fun v px =>
        (v = 0 ∨ v = 1) ∧ (v = 1 ↔ chanMax px ≠ 0)))
      (Model.init env fo fr).image_ref (env.imreadImg fr) := by
  show List.Forall₂ _ (binarize (env.imreadImg fr)) (env.imreadImg fr)
  rw [binarize, List.forall₂_map_left_iff, List.forall₂_same]
  intro row _
  rw [List.forall₂_map_left_iff, List.forall₂_same]
  intro px _
  by_cases h : chanMax px ≠ 0 <;> simp [h]

/-- The state threaded through the training loop body: the model, the Adam
state, the iteration counter (for the `%04d` frame names) and the frame
files written so far. -/
structure LoopState where
  model : Model
  adam : AdamState
  iter : ℕ
  frames : List (String × Img)

/-- Zero-padding of `'/tmp/_tmp_%04d.png' % i`. -/
def pad4 (i : ℕ) : String :=
  let s := toString i
  String.mk (List.replicate (4 - s.length) (Char.ofNat 48)) ++ s

/-- One iteration of the loop body: `optimizer.zero_grad()` (implicit),
`loss = model()` observed through `loss.item()`, `loss.backward()` (the
gradient comes from the autodiff oracle), `optimizer.step()`, then the
snapshot render written to `/tmp/_tmp_%04d.png`. -/
noncomputable def mainStep (env : Env) (s : LoopState) : LoopState × ℚ :=
  let loss := env.lossVal s.model
  let g := env.grad s.iter
  let p := optimizerStep g s.adam s.model
  let frame := env.renderTex p.1
  ({ model := p.1, adam := p.2, iter := s.iter + 1,
     frames := s.frames ++ [("/tmp/_tmp_" ++ pad4 s.iter ++ ".png", frame)] },
   loss)

/-- Command-line arguments of `main` with their parsed types. -/
structure Args where
  filename_obj : String
  filename_ref : String
  filename_output : String
  make_reference_image : ℤ
  gpu : ℤ

/-- Everything `main` makes observable: the optionally synthesized
reference file, the trained model, the iteration count, the assembled GIF
(frames and event trace), the leftover temporary files, the output path,
and the device all tensors were placed on (`.cuda()` takes no argument, so
it is always the current device 0). -/
structure RunResult where
  refWritten : Option (String × Img)
  finalModel : Model
  iterations : ℕ
  gifFrames : List Img
  gifEvents : List GifEvent
  leftoverFrames : List (String × Img)
  gifFile : String
  device : ℕ

/-- Model of `main`: parse arguments, optionally synthesize the reference
image, build the model, run the 1000-iteration training loop, assemble the
GIF.  The parsed `--gpu` value is bound to `args.gpu` and never read. -/
noncomputable def mainRun (env : Env) (a : Args) : RunResult :=
  let refW := if a.make_reference_image ≠ 0
    then some (a.filename_ref, env.makeRef a.filename_obj) else none
  let mdl := Model.init env a.filename_obj a.filename_ref
  let final := runTraining (mainStep env)
      { model := mdl, adam := adamInit, iter := 0, frames := [] }
  let gif := make_gif final.1.frames
  { refWritten := refW, finalModel := final.1.model, iterations := final.2,
    gifFrames := gif.2.1, gifEvents := gif.2.2, leftoverFrames := gif.1,
    gifFile := a.filename_output, device := 0 }

/-- C10: the program's behavior is independent of `--gpu`: two runs whose
arguments agree on everything except the `gpu` integer produce identical
results, and the device placement is the constant current device (0) in
both. -/
theorem behavior_independent_of_gpu_flag (env : Env) (a1 a2 : Args)
    (ho : a1.filename_obj = a2.filename_obj)
    (hr : a1.filename_ref = a2.filename_ref)
    (hout : a1.filename_output = a2.filename_output)
    (hmr : a1.make_reference_image = a2.make_reference_image) :
    mainRun env a1 = mainRun env a2 ∧ (mainRun env a1).device = 0 := by
  cases a1
  cases a2
  simp only at ho hr hout hmr
  subst ho hr hout hmr
  exact ⟨rfl, rfl⟩

/-- Concrete environment for the C10 witness. -/
noncomputable def env0 : Env :=
  { load_obj := fun _ => ([], []), imreadImg := fun _ => [],
    render := fun _ _ _ => [], renderTex := fun _ => [],
    grad := fun _ _ => 0, lossVal := fun _ => 100, makeRef := fun _ => [] }

/-- Arguments with `--gpu 0`. -/
def argsGpu0 : Args := ⟨"teapot.obj", "ref.png", "result.gif", 0, 0⟩

/-- The same arguments with `--gpu 1`. -/
def argsGpu1 : Args := ⟨"teapot.obj", "ref.png", "result.gif", 0, 1⟩

/-- Witness for C10: two concrete runs differing only in the `--gpu` value
coincide, with device 0. -/
theorem behavior_independent_of_gpu_flag_witness :
    mainRun env0 argsGpu0 = mainRun env0 argsGpu1 ∧
      (mainRun env0 argsGpu0).device = 0 :=
  behavior_independent_of_gpu_flag env0 argsGpu0 argsGpu1 rfl rfl rfl rfl
